import Mathlib

/-!
Verification of the concurrency-controlled upload/download queue subsystem of
the RapidPhotoMobile client: the Semaphore primitive, the presigned-URL
batcher, the upload queue manager, the download service and the token-refresh
coordinator, shallowly embedded from the TypeScript sources.

The scheduling model is the single-threaded cooperative one of a JS runtime:
code between suspension points (awaits) runs to completion without preemption,
so each synchronous section is embedded as a pure state transformer, and
runs are sequences of such sections.
-/

namespace RapidPhoto

/-! ## Semaphore

Embedded from the class Semaphore in
src/mobile/src/services/download/DownloadService.ts lines 289-316 (the copy in
the upload queue manager module, part_004 lines 294-321, is textually
identical).  The field permits is a JS number, embedded as Int; the field
waiting is the array of queued continuations, embedded as the list of waiter
identifiers in arrival order (push appends at the back, shift removes the
front). -/

structure Semaphore where
  permits : Int
  waiting : List Nat
deriving Repr, DecidableEq

inductive AcquireOutcome where
  | acquired
  | enqueued
deriving Repr, DecidableEq

/-- acquire(): if permits is positive, decrement it and return at once;
otherwise append the continuation of the caller to the waiting array. -/
def Semaphore.acquire (s : Semaphore) (w : Nat) : Semaphore × AcquireOutcome :=
  if 0 < s.permits then
    ({ s with permits := s.permits - 1 }, AcquireOutcome.acquired)
  else
    ({ s with waiting := s.waiting ++ [w] }, AcquireOutcome.enqueued)

/-- release(): increment permits; then, if the waiting array is non-empty,
shift its oldest entry, decrement permits again and resume that waiter.  The
resumed waiter identifier is returned. -/
def Semaphore.release (s : Semaphore) : Semaphore × Option Nat :=
  match s.waiting with
  | [] => ({ s with permits := s.permits + 1 }, none)
  | w :: rest =>
      ({ s with permits := s.permits + 1 - 1, waiting := rest }, some w)

/-! ### Holder-counting instrumentation for the semaphore bound (C4)

A system state pairs the semaphore with the number of logical tasks that have
acquired and not yet released.  An operation is either an acquire attempt by a
fresh waiter or a release performed by a current holder; a release performed
by a holder that wakes a queued waiter transfers the permit, so the holder
count is unchanged there. -/

structure SemSys where
  sem : Semaphore
  holders : Nat
deriving Repr, DecidableEq

inductive SemOp where
  | acq (w : Nat)
  | rel
deriving Repr, DecidableEq

def SemSys.step (st : SemSys) : SemOp → SemSys
  | SemOp.acq w =>
    match st.sem.acquire w with
    | (s1, AcquireOutcome.acquired) => { sem := s1, holders := st.holders + 1 }
    | (s1, AcquireOutcome.enqueued) => { sem := s1, holders := st.holders }
  | SemOp.rel =>
    match st.sem.release with
    | (s1, some _) => { sem := s1, holders := st.holders }
    | (s1, none) => { sem := s1, holders := st.holders - 1 }

def SemSys.run (st : SemSys) (ops : List SemOp) : SemSys :=
  ops.foldl SemSys.step st

/-- A trace is valid when every release is performed by a current holder:
this is exactly the calling contract that every acquire is paired with one
later release. -/
def SemSys.validB (st : SemSys) : List SemOp → Bool
  | [] => true
  | op :: rest =>
    (match op with
     | SemOp.acq _ => true
     | SemOp.rel => decide (1 ≤ st.holders)) && (st.step op).validB rest

def semInit (n : Nat) : SemSys :=
  { sem := { permits := (n : Int), waiting := [] }, holders := 0 }

/-- Inductive invariant of the instrumented semaphore: permits never drops
below zero, holders plus remaining permits equals the initial permit count,
and a positive permit count forces an empty waiting queue. -/
def semInv (n : Nat) (st : SemSys) : Prop :=
  0 ≤ st.sem.permits ∧ st.holders + st.sem.permits.toNat = n ∧
    (0 < st.sem.permits → st.sem.waiting = [])

theorem semInv_init (n : Nat) : semInv n (semInit n) := by
  refine ⟨?_, ?_, ?_⟩ <;> simp [semInit, semInv]

theorem semInv_step (n : Nat) (st : SemSys) (op : SemOp)
    (hinv : semInv n st)
    (hvalid : op = SemOp.rel → 1 ≤ st.holders) :
    semInv n (st.step op) := by
  obtain ⟨hpos, hsum, hq⟩ := hinv
  cases op with
  | acq w =>
    by_cases hp : 0 < st.sem.permits
    · have hqe := hq hp
      simp only [semInv, SemSys.step, Semaphore.acquire, if_pos hp]
      refine ⟨by simp; omega, by simp; omega, fun h1 => by simpa using hqe⟩
    · simp only [semInv, SemSys.step, Semaphore.acquire, if_neg hp]
      refine ⟨by simpa using hpos, by simpa using hsum, fun h1 => ?_⟩
      simp at h1
      exact absurd h1 hp
  | rel =>
    have hh : 1 ≤ st.holders := hvalid rfl
    rcases hw : st.sem.waiting with _ | ⟨w0, rest⟩
    · simp only [semInv, SemSys.step, Semaphore.release, hw]
      refine ⟨by omega, by omega, fun _ => trivial⟩
    · have hp0 : st.sem.permits = 0 := by
        by_contra hne
        have : 0 < st.sem.permits := lt_of_le_of_ne hpos (Ne.symm hne)
        simp [hq this] at hw
      simp only [semInv, SemSys.step, Semaphore.release, hw]
      refine ⟨by simp; omega, by simp [hp0]; omega, fun h1 => ?_⟩
      simp [hp0] at h1

theorem semInv_run (n : Nat) (st : SemSys) (ops : List SemOp)
    (hinv : semInv n st) (hvalid : st.validB ops = true) :
    semInv n (st.run ops) := by
  induction ops generalizing st with
  | nil => simpa [SemSys.run] using hinv
  | cons op rest ih =>
    simp only [SemSys.validB, Bool.and_eq_true] at hvalid
    have hstep : semInv n (st.step op) := by
      refine semInv_step n st op hinv (fun hrel => ?_)
      subst hrel
      simpa using hvalid.1
    have : (st.step op).run rest = st.run (op :: rest) := rfl
    rw [SemSys.run, List.foldl_cons]
    exact ih (st.step op) hstep hvalid.2

/-! ## Upload data model

Embedded from part_004 (the upload queue manager module).  The nested
SelectedImage record of a task is flattened into the fields uri, filename and
fileSize, which are the only ones the manager reads. -/

structure UploadTask where
  id : String
  uri : String
  filename : String
  fileSize : Nat
  tags : List String
deriving Repr, DecidableEq

structure UploadResult where
  taskId : String
  success : Bool
  photoId : Option String
  error : Option String
deriving Repr, DecidableEq

structure QueueManagerConfig where
  maxConcurrent : Nat
  batchSize : Nat
deriving Repr, DecidableEq

structure UploadRequestDto where
  filename : String
  contentType : String
  fileSize : Nat
  tags : List String
deriving Repr, DecidableEq

structure UploadResponseDto where
  photoId : String
  presignedUrl : String
  s3Key : String
  expirationTime : Nat
deriving Repr, DecidableEq

/-- The external collaborators of the upload pipeline, as oracles mapping each
request to its settlement.  A value of Except String T is a promise that
either rejects with the given error message (the JS error normalization
chains are collapsed to the message string) or resolves with T. -/
structure UploadEnv where
  requestPresignedUrl : UploadRequestDto → Except String UploadResponseDto
  uploadToS3 : String → String → Except String Unit
  reportUploadComplete : String → Except String Unit

structure UrlResult where
  task : UploadTask
  success : Bool
  presignedUrl : Option String
  photoId : Option String
  error : Option String
deriving Repr, DecidableEq

def taskDto (t : UploadTask) : UploadRequestDto :=
  { filename := t.filename, contentType := "image/jpeg", fileSize := t.fileSize,
    tags := t.tags }

/-- requestPresignedUrl (part_004 lines 133-165): one authorization request per
task, with the catch block turning a rejection into a failed record. -/
def requestPresignedUrlTask (env : UploadEnv) (t : UploadTask) : UrlResult :=
  match env.requestPresignedUrl (taskDto t) with
  | Except.ok resp =>
      { task := t, success := true, presignedUrl := some resp.presignedUrl,
        photoId := some resp.photoId, error := none }
  | Except.error e =>
      { task := t, success := false, presignedUrl := none, photoId := none,
        error := some e }

/-! ## Presigned-URL batcher (part_004 lines 103-128)

The source loop slices the queue at indices 0, B, 2B, ... while the index is
below the length.  chunkLoop carries the list length as fuel: for a positive
batch size each iteration drops at least one element, so the fuel is never
exhausted and the recursion coincides with the source loop (with batch size 0
the source loop never terminates, which is outside every claim). -/

def chunkLoop (B : Nat) : Nat → List UploadTask → List (List UploadTask)
  | _, [] => []
  | 0, _ :: _ => []
  | fuel + 1, t :: ts => ((t :: ts).take B) :: chunkLoop B fuel ((t :: ts).drop B)

def batches (B : Nat) (q : List UploadTask) : List (List UploadTask) :=
  chunkLoop B q.length q

/-- requestPresignedUrlsInBatches: for each chunk, one request per task issued
concurrently within the chunk, the whole chunk awaited before the next chunk
starts, and the chunk results appended in order. -/
def requestPresignedUrlsInBatches (env : UploadEnv) (B : Nat)
    (q : List UploadTask) : List UrlResult :=
  ((batches B q).map (fun b => b.map (requestPresignedUrlTask env))).flatten

/-! ### Batcher lemmas -/

@[simp]
theorem chunkLoop_nil (B fuel : Nat) : chunkLoop B fuel [] = [] := by
  cases fuel <;> rfl

theorem chunkLoop_flatten (B : Nat) (hB : 0 < B) :
    ∀ (fuel : Nat) (l : List UploadTask), l.length ≤ fuel →
      (chunkLoop B fuel l).flatten = l := by
  intro fuel
  induction fuel with
  | zero =>
    intro l hl
    have : l = [] := List.eq_nil_of_length_eq_zero (Nat.le_zero.mp hl)
    simp [this]
  | succ fuel ih =>
    intro l hl
    rcases l with _ | ⟨t, ts⟩
    · simp
    · have hdrop : (((t :: ts).drop B)).length ≤ fuel := by
        rw [List.length_drop, List.length_cons]
        rw [List.length_cons] at hl
        omega
      simp only [chunkLoop, List.flatten_cons, ih _ hdrop]
      exact List.take_append_drop B (t :: ts)

theorem chunkLoop_mem_shape (B : Nat) (hB : 0 < B) :
    ∀ (fuel : Nat) (l : List UploadTask) (c : List UploadTask),
      l.length ≤ fuel → c ∈ chunkLoop B fuel l → c ≠ [] ∧ c.length ≤ B := by
  intro fuel
  induction fuel with
  | zero =>
    intro l c hl hc
    have : l = [] := List.eq_nil_of_length_eq_zero (Nat.le_zero.mp hl)
    subst this
    simp at hc
  | succ fuel ih =>
    intro l c hl hc
    rcases l with _ | ⟨t, ts⟩
    · simp at hc
    · simp only [chunkLoop, List.mem_cons] at hc
      rcases hc with hc | hc
      · subst hc
        constructor
        · apply List.length_pos.mp
          rw [List.length_take, List.length_cons]
          omega
        · rw [List.length_take]
          exact min_le_left _ _
      · have hdrop : (((t :: ts).drop B)).length ≤ fuel := by
          rw [List.length_drop, List.length_cons]
          rw [List.length_cons] at hl
          omega
        exact ih _ c hdrop hc

theorem chunkLoop_mem_of_mem (B : Nat) :
    ∀ (fuel : Nat) (l : List UploadTask) (c : List UploadTask),
      c ∈ chunkLoop B fuel l → ∀ x ∈ c, x ∈ l := by
  intro fuel
  induction fuel with
  | zero =>
    intro l c hc
    rcases l with _ | ⟨t, ts⟩
    · simp at hc
    · have : chunkLoop B 0 (t :: ts) = [] := rfl
      rw [this] at hc
      simp at hc
  | succ fuel ih =>
    intro l c hc x hx
    rcases l with _ | ⟨t, ts⟩
    · simp at hc
    · simp only [chunkLoop, List.mem_cons] at hc
      rcases hc with hc | hc
      · exact List.take_subset B (t :: ts) (hc ▸ hx)
      · exact List.drop_subset B (t :: ts) (ih _ c hc x hx)

theorem chunkLoop_full_chunks (B : Nat) (hB : 0 < B) :
    ∀ (fuel : Nat) (l : List UploadTask), l.length ≤ fuel →
      ∀ (i : Nat) (h : i + 1 < (chunkLoop B fuel l).length),
        ((chunkLoop B fuel l).get ⟨i, Nat.lt_of_succ_lt h⟩).length = B := by
  intro fuel
  induction fuel with
  | zero =>
    intro l hl i h
    have : l = [] := List.eq_nil_of_length_eq_zero (Nat.le_zero.mp hl)
    subst this
    simp at h
  | succ fuel ih =>
    intro l hl i h
    rcases l with _ | ⟨t, ts⟩
    · simp at h
    · have hdrop : (((t :: ts).drop B)).length ≤ fuel := by
        rw [List.length_drop, List.length_cons]
        rw [List.length_cons] at hl
        omega
      rcases i with _ | i
      · have hne : chunkLoop B fuel ((t :: ts).drop B) ≠ [] := by
          intro habs
          rw [show chunkLoop B (fuel + 1) (t :: ts) =
            ((t :: ts).take B) :: chunkLoop B fuel ((t :: ts).drop B) from rfl,
            habs] at h
          simp at h
        have hdropne : (t :: ts).drop B ≠ [] := by
          intro habs
          rw [habs] at hne
          simp at hne
        have hlen : B ≤ (t :: ts).length := by
          by_contra hlt
          exact hdropne (List.drop_eq_nil_of_le (by omega))
        show ((t :: ts).take B).length = B
        rw [List.length_take]
        exact Nat.min_eq_left hlen
      · have h2 : i + 1 < (chunkLoop B fuel ((t :: ts).drop B)).length := by
          rw [show chunkLoop B (fuel + 1) (t :: ts) =
            ((t :: ts).take B) :: chunkLoop B fuel ((t :: ts).drop B) from rfl,
            List.length_cons] at h
          omega
        show (((chunkLoop B fuel ((t :: ts).drop B))).get
          ⟨i, Nat.lt_of_succ_lt h2⟩).length = B
        exact ih _ hdrop i h2

/-! ### Authorization event trace

Within one chunk, the map over the chunk issues every authorization request
(the synchronous prefix of each call starts it), and the following await of
the combined promise means every request of the chunk has settled before the
loop body of the next chunk runs.  The trace therefore consists of one block
per chunk: all starts of the chunk, then all settlements of the chunk. -/

inductive Ev where
  | start (id : String)
  | settle (id : String)
deriving Repr, DecidableEq

def chunkBlock (b : List UploadTask) : List Ev :=
  b.map (fun t => Ev.start t.id) ++ b.map (fun t => Ev.settle t.id)

def authTrace (B : Nat) (q : List UploadTask) : List Ev :=
  ((batches B q).map chunkBlock).flatten

theorem flatten_split (L : List (List Ev)) (j : Nat) (hj : j < L.length) :
    ∃ pre post, L.flatten = pre ++ L.get ⟨j, hj⟩ ++ post ∧
      ∀ (i : Nat) (hi : i < j), ∀ e ∈ L.get ⟨i, Nat.lt_trans hi hj⟩, e ∈ pre := by
  refine ⟨(L.take j).flatten, (L.drop (j + 1)).flatten, ?_, ?_⟩
  · calc L.flatten
        = (L.take j ++ L.drop j).flatten := by rw [List.take_append_drop]
      _ = (L.take j).flatten ++ (L.drop j).flatten := by rw [List.flatten_append]
      _ = (L.take j).flatten ++ (L.get ⟨j, hj⟩ :: L.drop (j + 1)).flatten := by
            rw [List.drop_eq_getElem_cons hj]
            rfl
      _ = (L.take j).flatten ++ L.get ⟨j, hj⟩ ++ (L.drop (j + 1)).flatten := by
            rw [List.flatten_cons, List.append_assoc]
  · intro i hi e he
    rw [List.mem_flatten]
    have hi2 : i < (L.take j).length := by
      rw [List.length_take]
      omega
    have heq : (L.take j).get ⟨i, hi2⟩ = L.get ⟨i, Nat.lt_trans hi hj⟩ := by
      simp [List.get_eq_getElem, List.getElem_take]
    refine ⟨L.get ⟨i, Nat.lt_trans hi hj⟩, ?_, he⟩
    have hmem := List.get_mem (L.take j) i hi2
    rw [heq] at hmem
    exact hmem

/-! ## Upload executor (part_004 lines 188-245)

executeUpload awaits the transfer, then the completion report (which logs and
rethrows on failure), and its catch block turns either rejection into a
failed result.  Both branches store the result under the task id in the
completedTasks map before returning it. -/

def executeUpload (env : UploadEnv) (t : UploadTask)
    (presignedUrl photoId : String) : UploadResult :=
  match env.uploadToS3 t.uri presignedUrl with
  | Except.error e =>
      { taskId := t.id, success := false, photoId := none, error := some e }
  | Except.ok _ =>
    match env.reportUploadComplete photoId with
    | Except.error e =>
        { taskId := t.id, success := false, photoId := none, error := some e }
    | Except.ok _ =>
        { taskId := t.id, success := true, photoId := some photoId,
          error := none }

/-! ## processQueue, completion recording and waitForAllTasks

processQueue (part_004 lines 84-98) filters the Phase 1 outcomes to the
successful ones and invokes executeUpload only for those; completedTasks
receives exactly one entry per executeUpload invocation (lines 205 and 217).
processQueueRecorded is the association list of entries the activation adds
to completedTasks, keyed by task id; the non-null assertions on presignedUrl
and photoId are embedded as getD with the empty string. -/

def processQueueRecorded (env : UploadEnv) (B : Nat) (q : List UploadTask) :
    List (String × UploadResult) :=
  ((requestPresignedUrlsInBatches env B q).filter (fun r => r.success)).map
    (fun r => (r.task.id,
      executeUpload env r.task (r.presignedUrl.getD "") (r.photoId.getD "")))

/-- waitForAllTasks (part_004 lines 250-268) polls completedTasks every 100 ms
and collects one result per requested id; its loop exits only when every
requested id has an entry in completedTasks.  This predicate is that exit
condition on a snapshot of completedTasks. -/
def waitResolvesB (ids : List String)
    (completed : List (String × UploadResult)) : Bool :=
  ids.all (fun id => completed.any (fun p => p.1 = id))

/-! ## Manager state machine (part_004 lines 51-289)

The mutable fields of UploadQueueManager and every site in the source that
writes them: queue.push in addTasks (line 70), the isProcessing flag raised in
addTasks (line 73), completedTasks.set in executeUpload (lines 205, 217), and
cancelAll (lines 285-288).  The field activeUploads is declared at line 54 and
read in getStatus (line 277); no statement of the module ever assigns it after
its initializer.  processQueue is invoked at exactly one site, line 74, and
nothing in the module ever assigns isProcessing false except cancelAll. -/

structure MgrState where
  queue : List UploadTask
  activeUploads : Nat
  completed : List (String × UploadResult)
  isProcessing : Bool
deriving Repr, DecidableEq

def mgrInit : MgrState :=
  { queue := [], activeUploads := 0, completed := [], isProcessing := false }

/-- Map.set: replace the entry of the key when present, else append. -/
def setEntry (l : List (String × UploadResult)) (id : String)
    (r : UploadResult) : List (String × UploadResult) :=
  match l with
  | [] => [(id, r)]
  | p :: rest => if p.1 = id then (id, r) :: rest else p :: setEntry rest id r

inductive MgrOp where
  | push (tasks : List UploadTask)
  | beginProcessing
  | record (id : String) (r : UploadResult)
  | cancelAll
deriving Repr

def MgrState.applyOp (m : MgrState) : MgrOp → MgrState
  | MgrOp.push ts => { m with queue := m.queue ++ ts }
  | MgrOp.beginProcessing => { m with isProcessing := true }
  | MgrOp.record id r => { m with completed := setEntry m.completed id r }
  | MgrOp.cancelAll => { m with queue := [], isProcessing := false }

def MgrState.runOps (m : MgrState) (ops : List MgrOp) : MgrState :=
  ops.foldl MgrState.applyOp m

structure Status where
  queued : Nat
  active : Nat
  completed : Nat
  total : Nat
deriving Repr, DecidableEq

/-- getStatus (part_004 lines 273-280). -/
def MgrState.getStatus (m : MgrState) : Status :=
  { queued := m.queue.length, active := m.activeUploads,
    completed := m.completed.length,
    total := m.queue.length + m.activeUploads + m.completed.length }

/-- addTasks entry section (part_004 lines 69-75): the synchronous part of the
call appends the tasks and, when the manager is not already processing,
raises the flag and begins an activation.  The returned Bool says whether an
activation was begun by this call. -/
def addTasksEntry (m : MgrState) (tasks : List UploadTask) : MgrState × Bool :=
  let m1 : MgrState := { m with queue := m.queue ++ tasks }
  if m1.isProcessing then (m1, false)
  else ({ m1 with isProcessing := true }, true)

/-- One activation of processQueue over the queue it observes: it records the
phase-2 results of the authorization successes into completedTasks and leaves
every other field alone (in particular the queue is never drained and
isProcessing is never lowered). -/
def runActivation (env : UploadEnv) (B : Nat) (m : MgrState) : MgrState :=
  { m with completed := m.completed ++ processQueueRecorded env B m.queue }

/-! ## Phase 2 transfer events (part_004 lines 88-94 and 170-183)

The expression urlResults.filter(success).map(r => this.executeUpload(...))
applies executeUpload immediately to each element: Array.prototype.map is
synchronous, and the body of the async function executeUpload runs up to its
first await, which evaluates uploadToS3(...) and thereby starts that transfer.
The event loop does not yield inside this synchronous section, so no transfer
can settle before the map returns, and the semaphore acquisitions inside
processUploadsWithConcurrency all happen afterwards.  Every phase-2 event
trace therefore begins with one start event per authorization success. -/

def phase2MapEvents (urlResults : List UrlResult) : List Ev :=
  (urlResults.filter (fun r => r.success)).map (fun r => Ev.start r.task.id)

def phase2Trace (urlResults : List UrlResult) (rest : List Ev) : List Ev :=
  phase2MapEvents urlResults ++ rest

def countStarts (tr : List Ev) : Nat :=
  (tr.filter (fun e => match e with | Ev.start _ => true | _ => false)).length

def countSettles (tr : List Ev) : Nat :=
  (tr.filter (fun e => match e with | Ev.settle _ => true | _ => false)).length

/-- Transfers in flight after a prefix of the trace: started and not yet
settled. -/
def inFlight (tr : List Ev) : Nat :=
  countStarts tr - countSettles tr

/-! ## Download service (src/mobile/src/services/download/DownloadService.ts)

downloadPhoto, lines 78-154.  checkPermissions (lines 61-73) returns true on
every path, so the permission short-circuit at line 86 is dead; the
ensureDownloadDirectory failure is its thrown message caught by the outer
catch.  The call counters part of the value count the invocations of
getPhotoDownloadUrl (the download-URL endpoint, line 98) and of
FileSystem.downloadAsync (the transfer transport, line 115). -/

structure DownloadTask where
  photoId : String
  filename : String
  url : Option String
deriving Repr, DecidableEq

structure DownloadResult where
  task : DownloadTask
  success : Bool
  localUri : Option String
  error : Option String
deriving Repr, DecidableEq

structure DownloadEnv where
  downloadDir : String
  ensureDirOk : Bool
  getDownloadUrl : String → Except String String
  fileExists : String → Bool
  downloadAsync : String → String → Except String Unit

def checkPermissions : Bool := true

def downloadPhoto (env : DownloadEnv) (photoId filename : String) :
    DownloadResult × Nat × Nat :=
  if ¬checkPermissions then
    ({ task := { photoId := photoId, filename := filename, url := none },
       success := false, localUri := none,
       error := some "Storage permission denied" }, 0, 0)
  else if ¬env.ensureDirOk then
    ({ task := { photoId := photoId, filename := filename, url := none },
       success := false, localUri := none,
       error := some "Unable to create download directory" }, 0, 0)
  else
    match env.getDownloadUrl photoId with
    | Except.error e =>
        ({ task := { photoId := photoId, filename := filename, url := none },
           success := false, localUri := none, error := some e }, 1, 0)
    | Except.ok downloadUrl =>
      let localUri := env.downloadDir ++ filename
      if env.fileExists localUri then
        ({ task := { photoId := photoId, filename := filename, url := none },
           success := true, localUri := some localUri, error := none }, 1, 0)
      else
        match env.downloadAsync downloadUrl localUri with
        | Except.error e =>
            ({ task := { photoId := photoId, filename := filename, url := none },
               success := false, localUri := none, error := some e }, 1, 1)
        | Except.ok _ =>
            ({ task := { photoId := photoId, filename := filename, url := some downloadUrl },
               success := true, localUri := some localUri, error := none },
             1, 1)

/-! ## Token refresh coordinator (src/mobile/src/lib/utils/tokenRefresh.ts)

refreshAccessToken, lines 86-130: read the stored refresh token (null means
return null with no network call), perform one fetch against the refresh
endpoint, throw on a non-ok response, store the new token, and in the catch
block clear the stored tokens and return null (a failure of the clearing
itself rejects the promise).  The Nat in the value counts the fetch calls of
the invocation.  handleTokenRefresh, lines 141-172: enqueue the caller, start
a refresh only when none is running, and on settlement drain the whole queue
with one shared outcome, then lower the flag. -/

structure FetchResp where
  ok : Bool
  status : Nat
  accessToken : String
  expiresIn : Nat
deriving Repr, DecidableEq

structure RefreshEnv where
  refreshToken : Option String
  fetchResult : Except String FetchResp
  storeResult : Except String Unit
  clearResult : Except String Unit

inductive RAOutcome where
  | value (tok : Option String)
  | thrown (err : String)
deriving Repr, DecidableEq

/-- The catch block of refreshAccessToken: clear the stored tokens and resolve
with null, or reject when the clearing itself throws. -/
def refreshCatch (env : RefreshEnv) (fetches : Nat) : RAOutcome × Nat :=
  match env.clearResult with
  | Except.ok _ => (RAOutcome.value none, fetches)
  | Except.error ce => (RAOutcome.thrown ce, fetches)

def refreshAccessToken (env : RefreshEnv) : RAOutcome × Nat :=
  match env.refreshToken with
  | none => (RAOutcome.value none, 0)
  | some _ =>
    match env.fetchResult with
    | Except.error _ => refreshCatch env 1
    | Except.ok resp =>
      if ¬resp.ok then refreshCatch env 1
      else
        match env.storeResult with
        | Except.error _ => refreshCatch env 1
        | Except.ok _ => (RAOutcome.value (some resp.accessToken), 1)

inductive CallerOutcome where
  | resolved
  | rejected (err : String)
deriving Repr, DecidableEq

/-- Settlement dispatch of handleTokenRefresh (lines 154-167): a non-null
token resolves every queued caller, a null token rejects them all with the
same fresh error, and a rejection of refreshAccessToken rejects them all with
that error. -/
def settleOutcome : RAOutcome → CallerOutcome
  | RAOutcome.value (some _) => CallerOutcome.resolved
  | RAOutcome.value none => CallerOutcome.rejected "Token refresh failed"
  | RAOutcome.thrown e => CallerOutcome.rejected e

structure RQState where
  queue : List Nat
  isRefreshing : Bool
deriving Repr, DecidableEq

/-- The synchronous section of one handleTokenRefresh call: enqueue the
caller, and if no refresh is running raise the flag and start one.  The Bool
reports whether this call started the refresh. -/
def handleCallSync (s : RQState) (c : Nat) : RQState × Bool :=
  let s1 : RQState := { s with queue := s.queue ++ [c] }
  if s1.isRefreshing then (s1, false)
  else ({ s1 with isRefreshing := true }, true)

/-- A burst of simultaneous calls: their synchronous sections run back to
back, before the refresh settles.  Returns the callers that started a
refresh. -/
def simulCalls (s : RQState) : List Nat → RQState × List Nat
  | [] => (s, [])
  | c :: cs =>
    let p := handleCallSync s c
    let q := simulCalls p.1 cs
    (q.1, (if p.2 then [c] else []) ++ q.2)

/-- The settlement section: processQueue drains and empties the queue (lines
41-51), then the finally block lowers the flag (line 169). -/
def settleRefresh (env : RefreshEnv) (s : RQState) :
    RQState × List (Nat × CallerOutcome) :=
  ({ queue := [], isRefreshing := false },
   s.queue.map (fun c => (c, settleOutcome (refreshAccessToken env).1)))

/-- The whole single-flight scenario: a burst of simultaneous calls from the
idle state, then the settlement of the refresh the burst started (if the
burst is empty no refresh runs).  Returns the per-caller settlements, the
total number of fetch calls against the refresh endpoint, and the final
state. -/
def refreshScenario (env : RefreshEnv) (callers : List Nat) :
    List (Nat × CallerOutcome) × Nat × RQState :=
  let p := simulCalls { queue := [], isRefreshing := false } callers
  match p.2 with
  | [] => ([], 0, p.1)
  | _ :: _ =>
    let q := settleRefresh env p.1
    (q.2, p.2.length * (refreshAccessToken env).2, q.1)

/-! ## Shared lemmas about the pipeline -/

theorem requestPresignedUrlTask_task (env : UploadEnv) (t : UploadTask) :
    (requestPresignedUrlTask env t).task = t := by
  unfold requestPresignedUrlTask
  cases env.requestPresignedUrl (taskDto t) <;> rfl

theorem mem_requestPresignedUrlsInBatches (env : UploadEnv) (B : Nat)
    (q : List UploadTask) (r : UrlResult)
    (hr : r ∈ requestPresignedUrlsInBatches env B q) :
    ∃ t ∈ q, r = requestPresignedUrlTask env t := by
  unfold requestPresignedUrlsInBatches at hr
  rw [List.mem_flatten] at hr
  obtain ⟨l, hl, hrl⟩ := hr
  rw [List.mem_map] at hl
  obtain ⟨b, hb, rfl⟩ := hl
  rw [List.mem_map] at hrl
  obtain ⟨t, ht, rfl⟩ := hrl
  exact ⟨t, chunkLoop_mem_of_mem B q.length q b hb t ht, rfl⟩

theorem requestPresignedUrlsInBatches_eq_map (env : UploadEnv) (B : Nat)
    (q : List UploadTask) (hB : 0 < B) :
    requestPresignedUrlsInBatches env B q =
      q.map (requestPresignedUrlTask env) := by
  unfold requestPresignedUrlsInBatches
  rw [← List.map_flatten]
  rw [show ((batches B q).flatten = q) from
    chunkLoop_flatten B hB q.length q le_rfl]

theorem SemSys.validB_append_left (l1 l2 : List SemOp) :
    ∀ (st : SemSys), st.validB (l1 ++ l2) = true → st.validB l1 = true := by
  induction l1 with
  | nil =>
    intro st _
    rfl
  | cons op rest ih =>
    intro st h
    simp only [List.cons_append, SemSys.validB, Bool.and_eq_true] at h ⊢
    exact ⟨h.1, ih _ h.2⟩

/-! ## Claim theorems -/

/-- Claim C5: for every Semaphore state with a non-empty waiting queue,
release dequeues and resumes the oldest waiter (the head of the queue, which
is the earliest-arrived one, since a blocked acquire appends at the back) and
the permit count is net-unchanged by that release; when the waiting queue is
empty, release increments permits by exactly one. -/
theorem semaphoreReleaseSpec (s : Semaphore) :
    (∀ (w : Nat) (rest : List Nat), s.waiting = w :: rest →
      s.release = ({ permits := s.permits, waiting := rest }, some w)) ∧
    (s.waiting = [] →
      s.release = ({ permits := s.permits + 1, waiting := [] }, none)) ∧
    (∀ (w : Nat), ¬ 0 < s.permits →
      (s.acquire w).1.waiting = s.waiting ++ [w]) := by
  obtain ⟨p, ws⟩ := s
  refine ⟨?_, ?_, ?_⟩
  · intro w rest hw
    simp only at hw
    subst hw
    simp [Semaphore.release]
  · intro hw
    simp only at hw
    subst hw
    rfl
  · intro w hp
    simp [Semaphore.acquire, if_neg hp]

/-- Witness for C5 at a concrete semaphore state. -/
theorem semaphoreReleaseSpec_witness :
    (Semaphore.release { permits := 0, waiting := [5, 7, 9] } =
      ({ permits := 0, waiting := [7, 9] }, some 5)) ∧
    (Semaphore.release { permits := 2, waiting := [] } =
      ({ permits := 3, waiting := [] }, none)) ∧
    ((Semaphore.acquire { permits := 0, waiting := [5] } 8).1.waiting =
      [5, 8]) :=
  ⟨(semaphoreReleaseSpec { permits := 0, waiting := [5, 7, 9] }).1 5 [7, 9] rfl,
   (semaphoreReleaseSpec { permits := 2, waiting := [] }).2.1 rfl,
   (semaphoreReleaseSpec { permits := 0, waiting := [5] }).2.2 8 (by decide)⟩

/-- Claim C4: for every Semaphore with initial permit count n > 0 and every
operation sequence in which each release is performed by a task that holds
the semaphore (every acquire paired with exactly one later release), the
number of acquired-but-not-released holders never exceeds n at any instant,
i.e. after every prefix of the trace. -/
theorem semaphoreHolderBound (n : Nat) (pre post : List SemOp)
    (hn : 0 < n) (hv : (semInit n).validB (pre ++ post) = true) :
    ((semInit n).run pre).holders ≤ n := by
  have hpre : (semInit n).validB pre = true :=
    SemSys.validB_append_left pre post _ hv
  have hinv : semInv n ((semInit n).run pre) :=
    semInv_run n (semInit n) pre (semInv_init n) hpre
  obtain ⟨_, hsum, _⟩ := hinv
  omega

/-- Witness for C4: three acquirers against two permits, then three releases;
the holder bound two holds after the acquire prefix. -/
theorem semaphoreHolderBound_witness :
    0 < 2 ∧
    (semInit 2).validB
      ([SemOp.acq 0, SemOp.acq 1, SemOp.acq 2] ++
        [SemOp.rel, SemOp.rel, SemOp.rel]) = true ∧
    ((semInit 2).run [SemOp.acq 0, SemOp.acq 1, SemOp.acq 2]).holders ≤ 2 :=
  ⟨by decide, by decide,
   semaphoreHolderBound 2 [SemOp.acq 0, SemOp.acq 1, SemOp.acq 2]
     [SemOp.rel, SemOp.rel, SemOp.rel] (by decide) (by decide)⟩

/-- Claim C6: for every task list and every positive batch size B, the
presigned-URL batcher partitions the list into contiguous chunks of size B
(the last chunk may be shorter), its per-task outcome list is the input list
mapped in order, and in the authorization event trace every chunk forms a
block that follows all events (in particular all settlements) of every
earlier chunk, so a chunk is awaited fully before the next one starts. -/
theorem presignedBatcherSpec (env : UploadEnv) (B : Nat) (q : List UploadTask)
    (hB : 0 < B) :
    ((batches B q).flatten = q) ∧
    (∀ c ∈ batches B q, c ≠ [] ∧ c.length ≤ B) ∧
    (∀ (i : Nat) (h : i + 1 < (batches B q).length),
      ((batches B q).get ⟨i, Nat.lt_of_succ_lt h⟩).length = B) ∧
    (requestPresignedUrlsInBatches env B q =
      q.map (requestPresignedUrlTask env)) ∧
    ((requestPresignedUrlsInBatches env B q).map (fun r => r.task) = q) ∧
    (∀ (j : Nat) (hj : j < (batches B q).length), ∃ pre post,
      authTrace B q =
        pre ++ chunkBlock ((batches B q).get ⟨j, hj⟩) ++ post ∧
      ∀ (i : Nat) (hi : i < j),
        ∀ e ∈ chunkBlock ((batches B q).get ⟨i, Nat.lt_trans hi hj⟩),
          e ∈ pre) := by
  have hflat : (batches B q).flatten = q :=
    chunkLoop_flatten B hB q.length q le_rfl
  have hmap : requestPresignedUrlsInBatches env B q =
      q.map (requestPresignedUrlTask env) :=
    requestPresignedUrlsInBatches_eq_map env B q hB
  refine ⟨hflat, ?_, ?_, hmap, ?_, ?_⟩
  · intro c hc
    exact chunkLoop_mem_shape B hB q.length q c le_rfl hc
  · intro i h
    exact chunkLoop_full_chunks B hB q.length q le_rfl i h
  · rw [hmap, List.map_map]
    have : (fun r : UrlResult => r.task) ∘ requestPresignedUrlTask env = id := by
      funext t
      exact requestPresignedUrlTask_task env t
    rw [this, List.map_id]
  · intro j hj
    have hj2 : j < ((batches B q).map chunkBlock).length := by
      rw [List.length_map]
      exact hj
    obtain ⟨pre, post, heq, hpre⟩ :=
      flatten_split ((batches B q).map chunkBlock) j hj2
    refine ⟨pre, post, ?_, ?_⟩
    · rw [authTrace, heq, List.get_map]
    · intro i hi e he
      have hi2 : i < ((batches B q).map chunkBlock).length := by
        rw [List.length_map]
        exact Nat.lt_trans hi hj
      refine hpre i hi e ?_
      rw [List.get_map]
      exact he

def sampleTask (n : Nat) : UploadTask :=
  { id := toString n, uri := "uri", filename := "f.jpg", fileSize := 1,
    tags := [] }

def q25 : List UploadTask := (List.range 25).map sampleTask

def respOk : UploadResponseDto :=
  { photoId := "photo1", presignedUrl := "url1", s3Key := "key1",
    expirationTime := 0 }

def envOk : UploadEnv :=
  { requestPresignedUrl := fun _ => Except.ok respOk,
    uploadToS3 := fun _ _ => Except.ok (),
    reportUploadComplete := fun _ => Except.ok () }

/-- Witness for C6: twenty-five tasks with batch size ten give chunks of
sizes ten, ten and five, and the batcher satisfies the spec there. -/
theorem presignedBatcherSpec_witness :
    0 < 10 ∧ ((batches 10 q25).map List.length = [10, 10, 5]) ∧
    (((batches 10 q25).flatten = q25) ∧
     (∀ c ∈ batches 10 q25, c ≠ [] ∧ c.length ≤ 10) ∧
     (∀ (i : Nat) (h : i + 1 < (batches 10 q25).length),
       ((batches 10 q25).get ⟨i, Nat.lt_of_succ_lt h⟩).length = 10) ∧
     (requestPresignedUrlsInBatches envOk 10 q25 =
       q25.map (requestPresignedUrlTask envOk)) ∧
     ((requestPresignedUrlsInBatches envOk 10 q25).map (fun r => r.task) =
       q25) ∧
     (∀ (j : Nat) (hj : j < (batches 10 q25).length), ∃ pre post,
       authTrace 10 q25 =
         pre ++ chunkBlock ((batches 10 q25).get ⟨j, hj⟩) ++ post ∧
       ∀ (i : Nat) (hi : i < j),
         ∀ e ∈ chunkBlock ((batches 10 q25).get ⟨i, Nat.lt_trans hi hj⟩),
           e ∈ pre)) :=
  ⟨by decide, by decide, presignedBatcherSpec envOk 10 q25 (by decide)⟩

/-- Claim C8: a per-task failure at the authorization, transfer or
completion-report step is recorded in the per-task outcome with success false
and the error message; the batch functions are total (errors are values, so
nothing is thrown to the caller of the batch operation); every submitted task
gets exactly one Phase 1 outcome; and a task whose own collaborator calls all
succeed is recorded as a success regardless of how any sibling task fares. -/
theorem perTaskFailureIsolation (env : UploadEnv) (B : Nat)
    (q : List UploadTask) (t : UploadTask) (url pid : String) (hB : 0 < B) :
    (∀ e, env.requestPresignedUrl (taskDto t) = Except.error e →
      requestPresignedUrlTask env t = ⟨t, false, none, none, some e⟩) ∧
    (∀ e, env.uploadToS3 t.uri url = Except.error e →
      executeUpload env t url pid = ⟨t.id, false, none, some e⟩) ∧
    (∀ e, env.uploadToS3 t.uri url = Except.ok () →
      env.reportUploadComplete pid = Except.error e →
      executeUpload env t url pid = ⟨t.id, false, none, some e⟩) ∧
    ((requestPresignedUrlsInBatches env B q).length = q.length) ∧
    (∀ u resp, u ∈ q → env.requestPresignedUrl (taskDto u) = Except.ok resp →
      env.uploadToS3 u.uri resp.presignedUrl = Except.ok () →
      env.reportUploadComplete resp.photoId = Except.ok () →
      (u.id, ({ taskId := u.id, success := true,
                photoId := some resp.photoId, error := none } : UploadResult))
        ∈ processQueueRecorded env B q) := by
  refine ⟨?_, ?_, ?_, ?_, ?_⟩
  · intro e he
    unfold requestPresignedUrlTask
    rw [he]
  · intro e he
    unfold executeUpload
    rw [he]
  · intro e h1 h2
    unfold executeUpload
    rw [h1, h2]
  · rw [requestPresignedUrlsInBatches_eq_map env B q hB, List.length_map]
  · intro u resp hu hok hs3 hrep
    unfold processQueueRecorded
    rw [requestPresignedUrlsInBatches_eq_map env B q hB]
    have hf : requestPresignedUrlTask env u =
        ⟨u, true, some resp.presignedUrl, some resp.photoId, none⟩ := by
      unfold requestPresignedUrlTask
      rw [hok]
    apply List.mem_map.mpr
    refine ⟨requestPresignedUrlTask env u, ?_, ?_⟩
    · rw [List.mem_filter]
      refine ⟨List.mem_map_of_mem _ hu, ?_⟩
      rw [hf]
    · rw [hf]
      simp [executeUpload, hs3, hrep]

def tAuthFail : UploadTask :=
  { id := "t1", uri := "u1", filename := "authfail", fileSize := 1, tags := [] }

def tNetFail : UploadTask :=
  { id := "t2", uri := "netfail", filename := "ok", fileSize := 1, tags := [] }

def tGood : UploadTask :=
  { id := "t3", uri := "u3", filename := "ok", fileSize := 1, tags := [] }

def envMix : UploadEnv :=
  { requestPresignedUrl := fun d =>
      if d.filename = "authfail" then Except.error "auth down"
      else Except.ok respOk,
    uploadToS3 := fun uri _ =>
      if uri = "netfail" then Except.error "network error" else Except.ok (),
    reportUploadComplete := fun pid =>
      if pid = "reportfail" then Except.error "report down"
      else Except.ok () }

def resGood : UploadResult :=
  { taskId := tGood.id, success := true, photoId := some respOk.photoId,
    error := none }

/-- Witness for C8 on a three-task batch where the first task fails
authorization, the second fails transfer, and the third succeeds and is
recorded successful, unaffected by its failing siblings. -/
theorem perTaskFailureIsolation_witness :
    (requestPresignedUrlTask envMix tAuthFail =
      ⟨tAuthFail, false, none, none, some "auth down"⟩) ∧
    (executeUpload envMix tNetFail "url1" "photo1" =
      ⟨tNetFail.id, false, none, some "network error"⟩) ∧
    (executeUpload envMix tGood "url1" "reportfail" =
      ⟨tGood.id, false, none, some "report down"⟩) ∧
    ((requestPresignedUrlsInBatches envMix 10
        [tAuthFail, tNetFail, tGood]).length = 3) ∧
    ((tGood.id, resGood)
      ∈ processQueueRecorded envMix 10 [tAuthFail, tNetFail, tGood]) :=
  ⟨(perTaskFailureIsolation envMix 10 [tAuthFail, tNetFail, tGood]
      tAuthFail "url1" "photo1" (by decide)).1 "auth down" rfl,
   (perTaskFailureIsolation envMix 10 [tAuthFail, tNetFail, tGood]
      tNetFail "url1" "photo1" (by decide)).2.1 "network error" rfl,
   (perTaskFailureIsolation envMix 10 [tAuthFail, tNetFail, tGood]
      tGood "url1" "reportfail" (by decide)).2.2.1 "report down" rfl rfl,
   (perTaskFailureIsolation envMix 10 [tAuthFail, tNetFail, tGood]
      tGood "url1" "photo1" (by decide)).2.2.2.1,
   (perTaskFailureIsolation envMix 10 [tAuthFail, tNetFail, tGood]
      tGood "url1" "photo1" (by decide)).2.2.2.2 tGood respOk
      (by decide) rfl rfl rfl⟩

/-! ### Manager status counters (C10) -/

def pushedTotal : List MgrOp → Nat
  | [] => 0
  | MgrOp.push ts :: rest => ts.length + pushedTotal rest
  | MgrOp.beginProcessing :: rest => pushedTotal rest
  | MgrOp.record _ _ :: rest => pushedTotal rest
  | MgrOp.cancelAll :: rest => pushedTotal rest

def noCancelB : List MgrOp → Bool
  | [] => true
  | MgrOp.cancelAll :: _ => false
  | _ :: rest => noCancelB rest

theorem activeUploads_runOps :
    ∀ (ops : List MgrOp) (m : MgrState),
      (m.runOps ops).activeUploads = m.activeUploads := by
  intro ops
  induction ops with
  | nil =>
    intro m
    rfl
  | cons op rest ih =>
    intro m
    have h1 : (m.applyOp op).activeUploads = m.activeUploads := by
      cases op <;> rfl
    have : m.runOps (op :: rest) = (m.applyOp op).runOps rest := rfl
    rw [this, ih (m.applyOp op), h1]

theorem queue_length_runOps :
    ∀ (ops : List MgrOp) (m : MgrState), noCancelB ops = true →
      (m.runOps ops).queue.length = m.queue.length + pushedTotal ops := by
  intro ops
  induction ops with
  | nil =>
    intro m _
    simp [MgrState.runOps, pushedTotal]
  | cons op rest ih =>
    intro m hnc
    have hstep : m.runOps (op :: rest) = (m.applyOp op).runOps rest := rfl
    cases op with
    | push ts =>
      rw [hstep, ih _ (by simpa [noCancelB] using hnc)]
      simp [MgrState.applyOp, pushedTotal]
      omega
    | beginProcessing =>
      rw [hstep, ih _ (by simpa [noCancelB] using hnc)]
      rfl
    | record id r =>
      rw [hstep, ih _ (by simpa [noCancelB] using hnc)]
      rfl
    | cancelAll =>
      simp [noCancelB] at hnc

/-- Claim C10: in every reachable manager state the activeUploads counter is
zero (no operation of the module writes it), so getStatus always reports
active zero; and since completed tasks are never removed from the queue list
except by cancelAll, the queued count stays at the number of submitted tasks,
total equals submitted plus completed, and total strictly exceeds the number
of submitted tasks as soon as one task has completed. -/
theorem uploadManagerStatus (ops : List MgrOp) :
    ((mgrInit.runOps ops).activeUploads = 0 ∧
     (mgrInit.runOps ops).getStatus.active = 0) ∧
    (noCancelB ops = true →
      (mgrInit.runOps ops).getStatus.queued = pushedTotal ops ∧
      (mgrInit.runOps ops).getStatus.total =
        pushedTotal ops + (mgrInit.runOps ops).getStatus.completed ∧
      (1 ≤ (mgrInit.runOps ops).getStatus.completed →
        pushedTotal ops < (mgrInit.runOps ops).getStatus.total)) := by
  have ha : (mgrInit.runOps ops).activeUploads = 0 :=
    activeUploads_runOps ops mgrInit
  refine ⟨⟨ha, ha⟩, fun hnc => ?_⟩
  have hq : (mgrInit.runOps ops).queue.length = pushedTotal ops := by
    rw [queue_length_runOps ops mgrInit hnc]
    simp [mgrInit]
  refine ⟨hq, ?_, ?_⟩
  · show (mgrInit.runOps ops).queue.length + (mgrInit.runOps ops).activeUploads
        + (mgrInit.runOps ops).completed.length =
      pushedTotal ops + (mgrInit.runOps ops).completed.length
    omega
  · intro hc
    have hc2 : 1 ≤ (mgrInit.runOps ops).completed.length := hc
    show pushedTotal ops < (mgrInit.runOps ops).queue.length +
      (mgrInit.runOps ops).activeUploads + (mgrInit.runOps ops).completed.length
    omega

def resW1 : UploadResult :=
  { taskId := "1", success := true, photoId := some "p1", error := none }

def resW2 : UploadResult :=
  { taskId := "2", success := false, photoId := none, error := some "boom" }

def opsW : List MgrOp :=
  [MgrOp.push [sampleTask 1, sampleTask 2], MgrOp.beginProcessing,
   MgrOp.record "1" resW1, MgrOp.record "2" resW2]

/-- Witness for C10: a two-task run in which both tasks complete leaves
queued two and completed two, so getStatus reports total four for two
submitted tasks, with active zero throughout. -/
theorem uploadManagerStatus_witness :
    noCancelB opsW = true ∧
    (mgrInit.runOps opsW).getStatus =
      { queued := 2, active := 0, completed := 2, total := 4 } ∧
    (mgrInit.runOps opsW).activeUploads = 0 ∧
    pushedTotal opsW < (mgrInit.runOps opsW).getStatus.total :=
  ⟨by decide, by decide, (uploadManagerStatus opsW).1.1,
   ((uploadManagerStatus opsW).2 (by decide)).2.2 (by decide)⟩

/-! ### Token refresh lemmas (C3) -/

theorem simulCalls_refreshing (cs : List Nat) :
    ∀ (s : RQState), s.isRefreshing = true →
      simulCalls s cs = ({ s with queue := s.queue ++ cs }, []) := by
  induction cs with
  | nil =>
    intro s h
    simp [simulCalls]
  | cons c cs ih =>
    intro s h
    have h1 : handleCallSync s c =
        ({ s with queue := s.queue ++ [c] }, false) := by
      unfold handleCallSync
      simp [h]
    simp only [simulCalls, h1]
    rw [ih { s with queue := s.queue ++ [c] } h]
    simp

theorem refreshCatch_snd (env : RefreshEnv) (k : Nat) :
    (refreshCatch env k).2 = k := by
  unfold refreshCatch
  cases env.clearResult <;> rfl

theorem refreshAccessToken_fetchCount (env : RefreshEnv) (rt : String)
    (h : env.refreshToken = some rt) : (refreshAccessToken env).2 = 1 := by
  unfold refreshAccessToken
  rw [h]
  cases hfr : env.fetchResult with
  | error e =>
    simp only [hfr]
    exact refreshCatch_snd env 1
  | ok resp =>
    simp only [hfr]
    by_cases hok : resp.ok = true
    · rw [if_neg (by simp [hok])]
      cases hsr : env.storeResult with
      | error e =>
        simp only [hsr]
        exact refreshCatch_snd env 1
      | ok u =>
        simp only [hsr]
    · rw [if_pos hok]
      exact refreshCatch_snd env 1

theorem refreshScenario_eq (env : RefreshEnv) (c0 : Nat) (cs : List Nat) :
    refreshScenario env (c0 :: cs) =
      ((c0 :: cs).map
         (fun c => (c, settleOutcome (refreshAccessToken env).1)),
       (refreshAccessToken env).2,
       { queue := [], isRefreshing := false }) := by
  unfold refreshScenario
  have h0 : handleCallSync { queue := [], isRefreshing := false } c0 =
      ({ queue := [c0], isRefreshing := true }, true) := rfl
  have h1 : simulCalls ({ queue := [c0], isRefreshing := true } : RQState) cs =
      ({ queue := c0 :: cs, isRefreshing := true }, []) := by
    rw [simulCalls_refreshing cs _ rfl]
    rfl
  simp only [simulCalls, h0, h1]
  simp [settleRefresh]

/-- Claim C3: any number of simultaneous handleTokenRefresh calls made while
the coordinator is not refreshing perform exactly one fetch against the
refresh endpoint (given a stored refresh token), and every queued caller
settles exactly once and consistently: all resolve when the refresh yields a
token, all reject with one shared error otherwise; the queue is drained empty
and the flag lowered at the end. -/
theorem refreshSingleFlight (env : RefreshEnv) (c0 : Nat) (cs : List Nat)
    (rt : String) (htok : env.refreshToken = some rt)
    (settled : List (Nat × CallerOutcome)) (fetches : Nat) (final : RQState)
    (hrun : refreshScenario env (c0 :: cs) = (settled, fetches, final)) :
    fetches = 1 ∧
    settled.map Prod.fst = c0 :: cs ∧
    (∀ p ∈ settled, p.2 = settleOutcome (refreshAccessToken env).1) ∧
    (∀ tok, (refreshAccessToken env).1 = RAOutcome.value (some tok) →
      ∀ p ∈ settled, p.2 = CallerOutcome.resolved) ∧
    ((refreshAccessToken env).1 = RAOutcome.value none →
      ∀ p ∈ settled, p.2 = CallerOutcome.rejected "Token refresh failed") ∧
    (∀ err, (refreshAccessToken env).1 = RAOutcome.thrown err →
      ∀ p ∈ settled, p.2 = CallerOutcome.rejected err) ∧
    final.queue = [] ∧ final.isRefreshing = false := by
  rw [refreshScenario_eq env c0 cs] at hrun
  rw [Prod.mk.injEq, Prod.mk.injEq] at hrun
  obtain ⟨hsettled, hfetches, hfinal⟩ := hrun
  subst hsettled
  subst hfinal
  have hmem : ∀ p ∈ (c0 :: cs).map
      (fun c => (c, settleOutcome (refreshAccessToken env).1)),
      p.2 = settleOutcome (refreshAccessToken env).1 := by
    intro p hp
    rw [List.mem_map] at hp
    obtain ⟨c, _, rfl⟩ := hp
    rfl
  refine ⟨?_, ?_, hmem, ?_, ?_, ?_, rfl, rfl⟩
  · rw [← hfetches]
    exact refreshAccessToken_fetchCount env rt htok
  · have hfst : (Prod.fst ∘ fun c : Nat =>
        (c, settleOutcome (refreshAccessToken env).1)) = id := rfl
    rw [List.map_map, hfst, List.map_id]
  · intro tok htok2 p hp
    rw [hmem p hp, htok2]
    rfl
  · intro hnull p hp
    rw [hmem p hp, hnull]
    rfl
  · intro err herr p hp
    rw [hmem p hp, herr]
    rfl

def envRefreshOk : RefreshEnv :=
  { refreshToken := some "rt",
    fetchResult := Except.ok
      { ok := true, status := 200, accessToken := "newtok", expiresIn := 900 },
    storeResult := Except.ok (),
    clearResult := Except.ok () }

/-- Witness for C3: ten simultaneous callers with a stored refresh token and a
succeeding refresh endpoint; one fetch, all ten resolved, queue empty. -/
theorem refreshSingleFlight_witness :
    envRefreshOk.refreshToken = some "rt" ∧
    (refreshScenario envRefreshOk [0, 1, 2, 3, 4, 5, 6, 7, 8, 9]).2.1 = 1 ∧
    (refreshScenario envRefreshOk
        [0, 1, 2, 3, 4, 5, 6, 7, 8, 9]).1.map Prod.fst =
      [0, 1, 2, 3, 4, 5, 6, 7, 8, 9] ∧
    (∀ p ∈ (refreshScenario envRefreshOk [0, 1, 2, 3, 4, 5, 6, 7, 8, 9]).1,
      p.2 = CallerOutcome.resolved) ∧
    (refreshScenario envRefreshOk [0, 1, 2, 3, 4, 5, 6, 7, 8, 9]).2.2.queue
      = [] ∧
    (refreshScenario envRefreshOk
        [0, 1, 2, 3, 4, 5, 6, 7, 8, 9]).2.2.isRefreshing = false := by
  have T := refreshSingleFlight envRefreshOk 0 [1, 2, 3, 4, 5, 6, 7, 8, 9]
    "rt" rfl
    (refreshScenario envRefreshOk [0, 1, 2, 3, 4, 5, 6, 7, 8, 9]).1
    (refreshScenario envRefreshOk [0, 1, 2, 3, 4, 5, 6, 7, 8, 9]).2.1
    (refreshScenario envRefreshOk [0, 1, 2, 3, 4, 5, 6, 7, 8, 9]).2.2 rfl
  exact ⟨rfl, T.1, T.2.1, T.2.2.2.1 "newtok" rfl, T.2.2.2.2.2.2.1,
    T.2.2.2.2.2.2.2⟩

/-! ### Download idempotence (C7) -/

def envUrlDown : DownloadEnv :=
  { downloadDir := "docs/downloads/", ensureDirOk := true,
    getDownloadUrl := fun _ => Except.error "Network Error",
    fileExists := fun _ => true,
    downloadAsync := fun _ _ => Except.ok () }

/-- Counterexample to C7 as stated: with the local file for a.jpg already
present but the download-URL endpoint failing, downloadPhoto has already
issued one URL-endpoint call (so not zero network calls) and returns a
failed Result, not a successful one referencing the existing file — because
the source fetches the download URL before the existence check. -/
theorem downloadIdempotence_counterexample :
    envUrlDown.fileExists (envUrlDown.downloadDir ++ "a.jpg") = true ∧
    (downloadPhoto envUrlDown "p1" "a.jpg").2.1 = 1 ∧
    (downloadPhoto envUrlDown "p1" "a.jpg").1.success = false :=
  ⟨rfl, rfl, rfl⟩

/-- Claim C7 amended: when the target local file already exists, downloadPhoto
performs zero transfer-transport (downloadAsync) calls, and provided the
download-URL request — which the code still issues, once, before the
existence check — succeeds, it returns a successful Result referencing the
existing local file. -/
theorem downloadIdempotenceAmended (env : DownloadEnv)
    (photoId filename url : String)
    (hdir : env.ensureDirOk = true)
    (hex : env.fileExists (env.downloadDir ++ filename) = true) :
    (downloadPhoto env photoId filename).2.2 = 0 ∧
    (env.getDownloadUrl photoId = Except.ok url →
      downloadPhoto env photoId filename =
        ({ task := { photoId := photoId, filename := filename, url := none },
           success := true, localUri := some (env.downloadDir ++ filename),
           error := none }, 1, 0)) := by
  constructor
  · cases hurl : env.getDownloadUrl photoId with
    | error e => simp [downloadPhoto, checkPermissions, hdir, hurl]
    | ok u => simp [downloadPhoto, checkPermissions, hdir, hurl, hex]
  · intro hurl
    simp [downloadPhoto, checkPermissions, hdir, hurl, hex]

def envUrlOk : DownloadEnv :=
  { downloadDir := "docs/downloads/", ensureDirOk := true,
    getDownloadUrl := fun _ => Except.ok "https://bucket/a.jpg",
    fileExists := fun _ => true,
    downloadAsync := fun _ _ => Except.error "transport must not be called" }

/-- Witness for the amended C7: the file exists, the URL request succeeds, the
transfer transport (here an always-failing stub, proving it is not consulted)
is called zero times and the result is the existing file. -/
theorem downloadIdempotenceAmended_witness :
    envUrlOk.ensureDirOk = true ∧
    envUrlOk.fileExists (envUrlOk.downloadDir ++ "a.jpg") = true ∧
    (downloadPhoto envUrlOk "p1" "a.jpg").2.2 = 0 ∧
    downloadPhoto envUrlOk "p1" "a.jpg" =
      ({ task := { photoId := "p1", filename := "a.jpg", url := none },
         success := true,
         localUri := some (envUrlOk.downloadDir ++ "a.jpg"),
         error := none }, 1, 0) := by
  have T := downloadIdempotenceAmended envUrlOk "p1" "a.jpg"
    "https://bucket/a.jpg" rfl rfl
  exact ⟨rfl, rfl, T.1, T.2 rfl⟩

/-! ### Phase 2 concurrency (C1) -/

/-- Claim C1 refuted on the code: for any twenty authorization successes and
a manager configured with maxConcurrent six, every phase-2 trace has a
reachable instant — right after the eager map at lines 89-91 has invoked
executeUpload for each success, starting each transfer via uploadToS3 before
any semaphore acquisition — at which the number of in-flight transfers is
twenty, exceeding the configured bound.  The semaphore of
processUploadsWithConcurrency only gates awaiting the already-started
promises, so it never constrains these starts. -/
theorem uploadConcurrencyUnbounded (cfg : QueueManagerConfig)
    (urlResults : List UrlResult) (rest : List Ev)
    (hcfg : cfg.maxConcurrent = 6) (hlen : urlResults.length = 20)
    (hsucc : ∀ r ∈ urlResults, r.success = true) :
    ∃ pre post, phase2Trace urlResults rest = pre ++ post ∧
      cfg.maxConcurrent < inFlight pre := by
  refine ⟨phase2MapEvents urlResults, rest, rfl, ?_⟩
  have hfilter : urlResults.filter (fun r => r.success) = urlResults :=
    List.filter_eq_self.mpr (fun a ha => by simp [hsucc a ha])
  have hstart : countStarts (phase2MapEvents urlResults) = 20 := by
    unfold countStarts phase2MapEvents
    rw [hfilter, List.filter_map]
    have hcomp : ((fun e => match e with | Ev.start _ => true | _ => false) ∘
        (fun r : UrlResult => Ev.start r.task.id)) = fun _ => true := rfl
    rw [hcomp, List.filter_true, List.length_map, hlen]
  have hsettle : countSettles (phase2MapEvents urlResults) = 0 := by
    unfold countSettles phase2MapEvents
    rw [hfilter, List.filter_map]
    have hcomp : ((fun e => match e with | Ev.settle _ => true | _ => false) ∘
        (fun r : UrlResult => Ev.start r.task.id)) = fun _ => false := rfl
    rw [hcomp, List.filter_false]
    rfl
  rw [hcfg]
  unfold inFlight
  omega

def urlResOk : UrlResult :=
  { task := tGood, success := true, presignedUrl := some "url1",
    photoId := some "photo1", error := none }

/-- Witness for C1: twenty concrete successful authorizations under a
configuration with maxConcurrent six. -/
theorem uploadConcurrencyUnbounded_witness :
    (QueueManagerConfig.mk 6 10).maxConcurrent = 6 ∧
    (List.replicate 20 urlResOk).length = 20 ∧
    (∀ r ∈ List.replicate 20 urlResOk, r.success = true) ∧
    (∃ pre post, phase2Trace (List.replicate 20 urlResOk) [] = pre ++ post ∧
      (QueueManagerConfig.mk 6 10).maxConcurrent < inFlight pre) :=
  ⟨rfl, by decide, fun r hr => by rw [List.eq_of_mem_replicate hr]; rfl,
   uploadConcurrencyUnbounded (QueueManagerConfig.mk 6 10)
     (List.replicate 20 urlResOk) [] rfl (by decide)
     (fun r hr => by rw [List.eq_of_mem_replicate hr]; rfl)⟩

/-! ### Failed authorization never completes (C2) -/

/-- Claim C2 refuted on the code: a task whose presigned-URL request fails is
filtered out of Phase 2 (line 90), so no UploadResult for its id is ever
written to completedTasks, and the exit condition of the waitForAllTasks
polling loop can never become true for that id — addTasks never resolves,
instead of resolving with a failed Result for the task. -/
theorem authFailureNeverCompletes (env : UploadEnv) (B : Nat)
    (q : List UploadTask) (id : String) (hB : 0 < B)
    (hsubmitted : ∃ t ∈ q, t.id = id)
    (hfail : ∀ t ∈ q, t.id = id →
      ∃ e, env.requestPresignedUrl (taskDto t) = Except.error e) :
    (∀ p ∈ processQueueRecorded env B q, p.1 ≠ id) ∧
    waitResolvesB [id] (processQueueRecorded env B q) = false := by
  have hmain : ∀ p ∈ processQueueRecorded env B q, p.1 ≠ id := by
    intro p hp
    unfold processQueueRecorded at hp
    rw [List.mem_map] at hp
    obtain ⟨r, hr, rfl⟩ := hp
    rw [List.mem_filter] at hr
    obtain ⟨hrin, hrsucc⟩ := hr
    obtain ⟨t, ht, rfl⟩ := mem_requestPresignedUrlsInBatches env B q _ hrin
    show (requestPresignedUrlTask env t).task.id ≠ id
    rw [requestPresignedUrlTask_task]
    intro hid
    obtain ⟨e, he⟩ := hfail t ht hid
    unfold requestPresignedUrlTask at hrsucc
    rw [he] at hrsucc
    simp at hrsucc
  refine ⟨hmain, ?_⟩
  unfold waitResolvesB
  simp only [List.all_cons, List.all_nil, Bool.and_true]
  rw [List.any_eq_false]
  intro p hp
  simpa using hmain p hp

def envAuthDown : UploadEnv :=
  { requestPresignedUrl := fun _ => Except.error "boom",
    uploadToS3 := fun _ _ => Except.ok (),
    reportUploadComplete := fun _ => Except.ok () }

/-- Witness for C2: a single submitted task whose authorization request
rejects; its id never appears in the recorded results and the wait condition
stays false. -/
theorem authFailureNeverCompletes_witness :
    0 < 10 ∧
    (∃ t ∈ [tGood], t.id = "t3") ∧
    ((∀ p ∈ processQueueRecorded envAuthDown 10 [tGood], p.1 ≠ "t3") ∧
     waitResolvesB ["t3"] (processQueueRecorded envAuthDown 10 [tGood]) =
       false) :=
  ⟨by decide, by decide,
   authFailureNeverCompletes envAuthDown 10 [tGood] "t3" (by decide)
     (by decide) (fun t _ _ => ⟨"boom", rfl⟩)⟩

/-! ### Tasks added while Processing (C9) -/

/-- The two-call scenario of the claim: a first addTasks call from the idle
manager runs its activation to completion; a second call then appends its
tasks.  The source raises isProcessing at line 73 and never lowers it except
in cancelAll, and processQueue is invoked only from the branch guarded by
isProcessing being false, so the second call starts no activation. -/
def twoCallScenario (env : UploadEnv) (B : Nat)
    (first second : List UploadTask) : MgrState × Bool × Bool :=
  let p1 := addTasksEntry mgrInit first
  let m2 := if p1.2 then runActivation env B p1.1 else p1.1
  let p2 := addTasksEntry m2 second
  (p2.1, p1.2, p2.2)

theorem twoCallScenario_eq (env : UploadEnv) (B : Nat)
    (first second : List UploadTask) :
    twoCallScenario env B first second =
      ({ queue := first ++ second, activeUploads := 0,
         completed := processQueueRecorded env B first,
         isProcessing := true }, true, false) := by
  unfold twoCallScenario addTasksEntry runActivation mgrInit
  simp

/-- Claim C9 refuted on the code: the first addTasks call begins an
activation, but after it the manager is still flagged as processing (the flag
is never reset), so a second addTasks call begins no activation; the results
recorded by the only activation all carry ids of first-call tasks, so the
wait condition of the second call can never be satisfied for a fresh task id
and that call never resolves. -/
theorem secondAddTasksNeverCompletes (env : UploadEnv) (B : Nat)
    (first second : List UploadTask) (id : String)
    (hfresh : ∀ t ∈ first, t.id ≠ id)
    (hsubmitted : ∃ t ∈ second, t.id = id) :
    (twoCallScenario env B first second).2.1 = true ∧
    (twoCallScenario env B first second).2.2 = false ∧
    (twoCallScenario env B first second).1.isProcessing = true ∧
    (∀ p ∈ (twoCallScenario env B first second).1.completed, p.1 ≠ id) ∧
    waitResolvesB [id] (twoCallScenario env B first second).1.completed =
      false := by
  rw [twoCallScenario_eq env B first second]
  have hmain : ∀ p ∈ processQueueRecorded env B first, p.1 ≠ id := by
    intro p hp
    unfold processQueueRecorded at hp
    rw [List.mem_map] at hp
    obtain ⟨r, hr, rfl⟩ := hp
    rw [List.mem_filter] at hr
    obtain ⟨t, ht, rfl⟩ := mem_requestPresignedUrlsInBatches env B first _ hr.1
    show (requestPresignedUrlTask env t).task.id ≠ id
    rw [requestPresignedUrlTask_task]
    exact hfresh t ht
  refine ⟨rfl, rfl, rfl, hmain, ?_⟩
  unfold waitResolvesB
  simp only [List.all_cons, List.all_nil, Bool.and_true]
  rw [List.any_eq_false]
  intro p hp
  simpa using hmain p hp

/-- Witness for C9: first call uploads one task, second call adds a task with
a fresh id; the second call starts no activation and its wait condition is
false. -/
theorem secondAddTasksNeverCompletes_witness :
    (∀ t ∈ [tGood], t.id ≠ "t2") ∧
    (∃ t ∈ [tNetFail], t.id = "t2") ∧
    ((twoCallScenario envOk 10 [tGood] [tNetFail]).2.1 = true ∧
     (twoCallScenario envOk 10 [tGood] [tNetFail]).2.2 = false ∧
     (twoCallScenario envOk 10 [tGood] [tNetFail]).1.isProcessing = true ∧
     (∀ p ∈ (twoCallScenario envOk 10 [tGood] [tNetFail]).1.completed,
       p.1 ≠ "t2") ∧
     waitResolvesB ["t2"]
       (twoCallScenario envOk 10 [tGood] [tNetFail]).1.completed = false) :=
  ⟨by decide, by decide,
   secondAddTasksNeverCompletes envOk 10 [tGood] [tNetFail] "t2"
     (by decide) (by decide)⟩

end RapidPhoto
